import Mathlib

/-!
# Verification of the QEMU VM controller (`QEMUController.py`)

Shallow embedding of the controller.  Every external command invocation
(`subprocess.Popen` via `_run_command`) is modelled by consuming one slot of a
`World`: a script assigning to the n-th spawned command either `none`
(the spawn itself failed, `_run_command` returned `None`) or `some r` with the
captured stdout and exit code.  `os.kill` is recorded as a trace event.
Each controller method is translated directly from the Python source,
threading an explicit execution state (`ExecSt`) holding the number of
commands spawned so far and the ordered trace of observable actions.
Polling loops (`while time.time() - start_time < timeout: ...; time.sleep(1)`)
are modelled with idealized time: queries are instantaneous and each
`time.sleep(1)` advances the clock by one second, so a loop with bound
`timeout` performs exactly `timeout` status queries.
-/

namespace QEMUPlugin

/-- VM status values used throughout the controller
(`'Running'`, `'Stopped'`, `'Unknown'`). -/
inductive Status
  | Running
  | Stopped
  | Unknown
deriving DecidableEq, Repr

/-- The `'type'` field of a status result: `'qemu'` (direct process) or
`'libvirt'` (management daemon); `Option VMType` models Python's `None`. -/
inductive VMType
  | qemu
  | libvirt
deriving DecidableEq, Repr

/-- Outcome of one successfully spawned external command: captured stdout
(already decoded) and the exit code from `process.wait()`. -/
structure ProcResult where
  stdout : String
  exitCode : Nat
deriving DecidableEq, Repr

/-- Script of the external world for one controller-method call: the n-th
command spawned by `_run_command` yields `World n` (`none` = the spawn raised,
so `_run_command` returned `None`). -/
def World := Nat → Option ProcResult

/-- Signals sent by `os.kill` in `stop_vm`. -/
inductive Sig
  | sigterm
  | sigkill
deriving DecidableEq, Repr

/-- Observable actions of the controller: spawning an external command
(argv after the flatpak rewrite) and sending a signal. -/
inductive Event
  | run (argv : List String)
  | kill (pid : Int) (sig : Sig)
deriving DecidableEq, Repr

/-- Execution state threaded through a method call: `t` counts the commands
spawned so far (the next `World` slot to consume), `trace` is the ordered
list of observable actions. -/
structure ExecSt where
  t : Nat
  trace : List Event
deriving DecidableEq, Repr

/-- The controller's construction-time configuration
(`self.flatpak`, `self.qemu_bin_path`, `self.libvirt_available`,
`self.libvirt_uri`, `self.default_uri`). -/
structure QEMUController where
  flatpak : Bool
  qemu_bin_path : String
  libvirt_available : Bool
  libvirt_uri : Option String
  default_uri : Option String

/-- The argv rewrite in `_run_command`: under flatpak the command is prefixed
with `flatpak-spawn --host`. -/
def wrapCmd (c : QEMUController) (argv : List String) : List String :=
  if c.flatpak then "flatpak-spawn" :: "--host" :: argv else argv

/-- `_run_command`: spawn an external command, consuming one `World` slot and
recording the (rewritten) argv in the trace. -/
def runCommand (c : QEMUController) (w : World) (argv : List String)
    (s : ExecSt) : Option ProcResult × ExecSt :=
  (w s.t, ⟨s.t + 1, s.trace ++ [Event.run (wrapCmd c argv)]⟩)

/-- `os.kill(pid, sig)`: records the signal in the trace (signal delivery is
modelled as always accepted). -/
def killEv (s : ExecSt) (pid : Int) (sig : Sig) : ExecSt :=
  ⟨s.t, s.trace ++ [Event.kill pid sig]⟩

/-! ## Python string primitives used by the controller -/

/-- The whitespace characters removed by Python's `str.strip()`. -/
def isPyWs (c : Char) : Bool :=
  c = ' ' || c = '\t' || c = '\n' || c = '\r' || c = '\x0b' || c = '\x0c'

/-- Python `str.strip()`: remove leading and trailing whitespace. -/
def pyStrip (str : String) : String :=
  String.mk (((str.toList.dropWhile isPyWs).reverse.dropWhile isPyWs).reverse)

/-- Python `str.lower()` (ASCII case, which is all the controller compares). -/
def pyLower (str : String) : String :=
  String.mk (str.toList.map Char.toLower)

/-- Helper for `pySplitlines`: accumulate the current line (reversed). -/
def splitlinesAux : List Char → List Char → List (List Char)
  | [], acc => if acc = [] then [] else [acc.reverse]
  | '\n' :: rest, acc => acc.reverse :: splitlinesAux rest []
  | ch :: rest, acc => splitlinesAux rest (ch :: acc)

/-- Python `str.splitlines()` restricted to `'\n'` separators: every `'\n'`
terminates a line; a final segment is kept only if nonempty. -/
def pySplitlines (str : String) : List String :=
  (splitlinesAux str.toList []).map String.mk

/-- Decimal digits to a natural number, as `int()` reads them. -/
def digitsToNat (ds : List Char) : Nat :=
  ds.foldl (fun a c => a * 10 + (c.toNat - '0'.toNat)) 0

/-- Python `int()` on a character list: optional sign followed by a nonempty
run of digits; anything else raises `ValueError`, modelled as `none`. -/
def pyIntChars : List Char → Option Int
  | [] => none
  | c :: cs =>
    if c = '-' then
      if cs ≠ [] ∧ cs.all Char.isDigit = true then
        some (-(digitsToNat cs : Int))
      else none
    else if c = '+' then
      if cs ≠ [] ∧ cs.all Char.isDigit = true then
        some ((digitsToNat cs : Int))
      else none
    else if (c :: cs).all Char.isDigit = true then
      some ((digitsToNat (c :: cs) : Int))
    else none

/-- Python `int(str)` (on already-stripped input, as the controller calls it). -/
def pyInt (str : String) : Option Int :=
  pyIntChars str.toList

/-! ## The guest-name extraction of `get_vms`

The source line is `re.search(r'-name\\s+guest=([^,]+)', line)`.  Note the
raw string contains a doubled backslash, so the compiled regular expression is
`-name` followed by a literal backslash, then `s+` (one or more letters `s`),
then `guest=`, then the capture `([^,]+)` (a nonempty run of non-comma
characters, greedy).  The functions below implement exactly that pattern with
`re.search`'s leftmost-match rule.  (Backtracking is trivial here: the
character after a maximal run of `s` is never `s`, and nothing follows the
greedy capture, so matching at a given start position is deterministic.) -/

/-- Match a literal character list at the head of the input, returning the
rest of the input on success. -/
def dropLit : List Char → List Char → Option (List Char)
  | [], cs => some cs
  | _ :: _, [] => none
  | l :: ls, c :: cs => if c = l then dropLit ls cs else none

/-- Try to match `-name\s+guest=([^,]+)` (with the literal backslash of the
source's doubled escape) at the start of the input; return the capture. -/
def matchGuestAt (cs : List Char) : Option String :=
  match dropLit ['-', 'n', 'a', 'm', 'e', '\\'] cs with
  | none => none
  | some cs1 =>
    if cs1.takeWhile (fun c => c = 's') = [] then none
    else
      match dropLit ['g', 'u', 'e', 's', 't', '='] (cs1.dropWhile (fun c => c = 's')) with
      | none => none
      | some cs2 =>
        if cs2.takeWhile (fun c => c ≠ ',') = [] then none
        else some (String.mk (cs2.takeWhile (fun c => c ≠ ',')))

/-- `re.search` for the pattern above: first position (left to right) where a
match starts; `none` when no position matches. -/
def findGuestName : List Char → Option String
  | [] => none
  | c :: rest =>
    match matchGuestAt (c :: rest) with
    | some nm => some nm
    | none => findGuestName rest

/-! ## Status classification helpers -/

/-- Status derived from a `pgrep -f` query in `get_vm_status`:
exit 0 → Running, nonzero → Stopped, spawn failure → Unknown. -/
def pgrepStatus : Option ProcResult → Status
  | some r => if r.exitCode = 0 then .Running else .Stopped
  | none => .Unknown

/-- Status derived from a `virsh domstate` query in `get_vm_status`:
on exit 0 the stripped, lowercased stdout is compared against the known state
strings; nonzero exit or spawn failure leaves the status Unknown. -/
def domstateStatus : Option ProcResult → Status
  | some r =>
    if r.exitCode = 0 then
      if pyLower (pyStrip r.stdout) = "running" then .Running
      else if pyLower (pyStrip r.stdout) = "shut off"
           ∨ pyLower (pyStrip r.stdout) = "inactive"
           ∨ pyLower (pyStrip r.stdout) = "paused"
           ∨ pyLower (pyStrip r.stdout) = "suspended" then .Stopped
      else .Unknown
    else .Unknown
  | none => .Unknown

/-- The dictionary returned by `get_vm_status`:
`{'status': ..., 'type': ..., 'uri': ...}`. -/
structure StatusResult where
  status : Status
  type_ : Option VMType
  uri : Option String
deriving DecidableEq, Repr

/-- `QEMUController.get_vm_status(vm_name, uri)`. -/
def get_vm_status (c : QEMUController) (w : World) (vm_name uri : String)
    (s : ExecSt) : StatusResult × ExecSt :=
  if uri = "qemu" then
    let r := runCommand c w ["pgrep", "-f", "qemu.*" ++ vm_name] s
    (⟨pgrepStatus r.1, some .qemu, none⟩, r.2)
  else if c.libvirt_available = true then
    let r := runCommand c w ["virsh", "-c", uri, "domstate", vm_name] s
    (⟨domstateStatus r.1, some .libvirt, some uri⟩, r.2)
  else
    (⟨.Unknown, none, none⟩, s)

/-! ## Enumerator (`get_vms` and its helpers) -/

/-- One listed VM: `{"name": ..., "status": ...}`. -/
structure VMDesc where
  name : String
  status : Status
deriving DecidableEq, Repr

/-- The dictionary returned by `get_vms`: `{'qemu': [...], 'libvirt': {...}}`
(the libvirt mapping keeps insertion order, as a Python dict does). -/
structure Inventory where
  qemu : List VMDesc
  libvirt : List (String × List VMDesc)
deriving DecidableEq, Repr

/-- Python `a or b` on optional/empty strings (`self.libvirt_uri or
self.default_uri`): the first operand when truthy, otherwise the second. -/
def pyOr (a b : Option String) : Option String :=
  match a with
  | some x => if x ≠ "" then some x else b
  | none => b

/-- The accumulation loop of `_get_all_connections`: append each truthy URI
not already present. -/
def uriFold : List (Option String) → List String → List String
  | [], acc => acc
  | none :: rest, acc => uriFold rest acc
  | some uri :: rest, acc =>
    if uri ≠ "" ∧ uri ∉ acc then uriFold rest (acc ++ [uri])
    else uriFold rest acc

/-- `QEMUController._get_all_connections()`: the deduplicated list built from
`qemu:///system`, `qemu:///session` and the probed default URI. -/
def get_all_connections (c : QEMUController) : List String :=
  uriFold [some "qemu:///system", some "qemu:///session", c.default_uri] []

/-- The connection list used by `get_vms`: all connections when
`show_all_connections`, otherwise `[self.libvirt_uri or self.default_uri]`. -/
def connectionList (c : QEMUController) (show_all : Bool) : List (Option String) :=
  if show_all then (get_all_connections c).map some
  else [pyOr c.libvirt_uri c.default_uri]

/-- The list comprehension `[vm for vm in stdout.splitlines() if vm.strip()]`:
keep the raw lines whose stripped form is nonempty. -/
def parseNames (stdout : String) : List String :=
  (pySplitlines stdout).filter (fun vm => !(pyStrip vm).isEmpty)

/-- Entries contributed by one `virsh ... list --name` invocation: names
tagged Running on exit 0, nothing on nonzero exit or spawn failure. -/
def runningOf : Option ProcResult → List VMDesc
  | some r => if r.exitCode = 0 then (parseNames r.stdout).map (fun n => ⟨n, .Running⟩) else []
  | none => []

/-- Entries contributed by one `virsh ... list --inactive --name` invocation:
names tagged Stopped on exit 0, nothing on nonzero exit or spawn failure. -/
def stoppedOf : Option ProcResult → List VMDesc
  | some r => if r.exitCode = 0 then (parseNames r.stdout).map (fun n => ⟨n, .Stopped⟩) else []
  | none => []

/-- The per-endpoint body of the `get_vms` loop: query running VMs, then
inactive VMs, appending the second batch after the first. -/
def listEndpoint (c : QEMUController) (w : World) (uri : String)
    (s : ExecSt) : List VMDesc × ExecSt :=
  let r1 := runCommand c w ["virsh", "-c", uri, "list", "--name"] s
  let r2 := runCommand c w ["virsh", "-c", uri, "list", "--inactive", "--name"] r1.2
  (runningOf r1.1 ++ stoppedOf r2.1, r2.2)

/-- The `for uri in connections` loop of `get_vms`, with the source's
`if not uri: continue` skip of falsy entries. -/
def listEndpoints (c : QEMUController) (w : World) :
    List (Option String) → ExecSt → List (String × List VMDesc) × ExecSt
  | [], s => ([], s)
  | none :: rest, s => listEndpoints c w rest s
  | some uri :: rest, s =>
    if uri = "" then listEndpoints c w rest s
    else
      let r := listEndpoint c w uri s
      let rr := listEndpoints c w rest r.2
      ((uri, r.1) :: rr.1, rr.2)

/-- The exclusion set `libvirt_vm_names`: every name appearing in any
endpoint's list (a set in the source; only membership is ever used). -/
def managedNames : List (String × List VMDesc) → List String
  | [] => []
  | (_, l) :: rest => l.map VMDesc.name ++ managedNames rest

/-- The scan over `pgrep -fa qemu` output lines: a line whose guest-name
extraction succeeds contributes `{name, Running}` unless the name is already
managed by libvirt; other lines are ignored. -/
def scanLines (managed : List String) : List String → List VMDesc
  | [] => []
  | line :: rest =>
    match findGuestName line.toList with
    | some nm =>
      if nm ∉ managed then ⟨nm, .Running⟩ :: scanLines managed rest
      else scanLines managed rest
    | none => scanLines managed rest

/-- The direct-process part of the inventory, given the libvirt part and the
outcome of the `pgrep -fa qemu` command (whose exit code the source never
checks). -/
def directOf (lv : List (String × List VMDesc)) : Option ProcResult → List VMDesc
  | some r => scanLines (managedNames lv) (pySplitlines r.stdout)
  | none => []

/-- `QEMUController.get_vms(show_all_connections)`. -/
def get_vms (c : QEMUController) (w : World) (show_all : Bool)
    (s : ExecSt) : Inventory × ExecSt :=
  let r1 := if c.libvirt_available = true
            then listEndpoints c w (connectionList c show_all) s
            else ([], s)
  let r2 := runCommand c w ["pgrep", "-fa", "qemu"] r1.2
  (⟨directOf r1.1 r2.1, r1.1⟩, r2.2)

/-! ## Lifecycle operator (`start_vm`, `stop_vm`) -/

/-- A value of the optional `vm_config` dict: the source distinguishes
`bool` values from everything else, which it passes through `str`. -/
inductive ConfVal
  | b (x : Bool)
  | s (x : String)
deriving DecidableEq, Repr

/-- Python `str` on a config value. -/
def pyStr : ConfVal → String
  | .b true => "True"
  | .b false => "False"
  | .s x => x

/-- The config loop of `start_vm`: a True boolean becomes the bare token
`-key`; every other value becomes the pair `-key`, `str(value)`;
entries keep dict insertion order. -/
def configArgs : List (String × ConfVal) → List String
  | [] => []
  | (k, v) :: rest =>
    (match v with
     | .b true => ["-" ++ k]
     | _ => ["-" ++ k, pyStr v]) ++ configArgs rest

/-- `QEMUController.start_vm(vm_name, uri, vm_config)`. -/
def start_vm (c : QEMUController) (w : World) (vm_name uri : String)
    (vm_config : List (String × ConfVal)) (s : ExecSt) : Bool × ExecSt :=
  let r0 := get_vm_status c w vm_name uri s
  if r0.1.status = .Running then (true, r0.2)
  else if uri ≠ "qemu" ∧ c.libvirt_available = true then
    let r1 := runCommand c w ["virsh", "-c", uri, "start", vm_name] r0.2
    match r1.1 with
    | some pr =>
      if pr.exitCode = 0 then
        let r2 := get_vm_status c w vm_name uri r1.2
        (decide (r2.1.status = .Running), r2.2)
      else (false, r1.2)
    | none => (false, r1.2)
  else if uri = "qemu" then
    let r1 := runCommand c w
      (c.qemu_bin_path :: "-name" :: ("guest=" ++ vm_name) :: configArgs vm_config) r0.2
    match r1.1 with
    | some _ =>
      let r2 := get_vm_status c w vm_name uri r1.2
      (decide (r2.1.status = .Running), r2.2)
    | none => (false, r1.2)
  else (false, r0.2)

/-- The graceful-wait loop shared by both stop paths: up to `timeout` polls,
returning `true` as soon as a poll reports Stopped (the source then returns
`True` from `stop_vm` immediately). -/
def pollLoop (c : QEMUController) (w : World) (vm_name uri : String) :
    Nat → ExecSt → Bool × ExecSt
  | 0, s => (false, s)
  | Nat.succ n, s =>
    let r := get_vm_status c w vm_name uri s
    if r.1.status = .Stopped then (true, r.2)
    else pollLoop c w vm_name uri n r.2

/-- The libvirt branch of `stop_vm` (after the initial status check):
`destroy` when forced, otherwise `shutdown` followed by the poll loop, a
best-effort `destroy` escalation if still Running, and a final re-query. -/
def stopLibvirt (c : QEMUController) (w : World) (vm_name uri : String)
    (force : Bool) (timeout : Nat) (s : ExecSt) : Bool × ExecSt :=
  let cmd := if force then ["virsh", "-c", uri, "destroy", vm_name]
             else ["virsh", "-c", uri, "shutdown", vm_name]
  let r1 := runCommand c w cmd s
  match r1.1 with
  | none => (false, r1.2)
  | some pr =>
    if pr.exitCode ≠ 0 then (false, r1.2)
    else if force then
      let r3 := get_vm_status c w vm_name uri r1.2
      (decide (r3.1.status = .Stopped), r3.2)
    else
      let rp := pollLoop c w vm_name uri timeout r1.2
      if rp.1 then (true, rp.2)
      else
        let r2 := get_vm_status c w vm_name uri rp.2
        let s2 := if r2.1.status = .Running
                  then (runCommand c w ["virsh", "-c", uri, "destroy", vm_name] r2.2).2
                  else r2.2
        let r3 := get_vm_status c w vm_name uri s2
        (decide (r3.1.status = .Stopped), r3.2)

/-- The direct-process branch of `stop_vm` (after the initial status check):
resolve the pid with `pgrep -f`, then SIGKILL when forced, otherwise SIGTERM
followed by the poll loop, a SIGKILL escalation if still Running, and a final
re-query.  A failed `int()` parse of the pgrep output raises `ValueError`,
which the `except` clause turns into `False`. -/
def stopQemu (c : QEMUController) (w : World) (vm_name uri : String)
    (force : Bool) (timeout : Nat) (s : ExecSt) : Bool × ExecSt :=
  let r1 := runCommand c w ["pgrep", "-f", "qemu.*" ++ vm_name] s
  match r1.1 with
  | none => (false, r1.2)
  | some pr =>
    if pr.exitCode ≠ 0 then (true, r1.2)
    else
      match pyInt (pyStrip pr.stdout) with
      | none => (false, r1.2)
      | some pid =>
        if force then
          let s1 := killEv r1.2 pid .sigkill
          let r3 := get_vm_status c w vm_name uri s1
          (decide (r3.1.status = .Stopped), r3.2)
        else
          let s1 := killEv r1.2 pid .sigterm
          let rp := pollLoop c w vm_name uri timeout s1
          if rp.1 then (true, rp.2)
          else
            let r2 := get_vm_status c w vm_name uri rp.2
            let s2 := if r2.1.status = .Running then killEv r2.2 pid .sigkill else r2.2
            let r3 := get_vm_status c w vm_name uri s2
            (decide (r3.1.status = .Stopped), r3.2)

/-- `QEMUController.stop_vm(vm_name, uri, force, timeout)`. -/
def stop_vm (c : QEMUController) (w : World) (vm_name uri : String)
    (force : Bool) (timeout : Nat) (s : ExecSt) : Bool × ExecSt :=
  let r0 := get_vm_status c w vm_name uri s
  if r0.1.status = .Stopped then (true, r0.2)
  else if uri ≠ "qemu" ∧ r0.1.type_ = some .libvirt then
    stopLibvirt c w vm_name uri force timeout r0.2
  else if uri = "qemu" ∧ r0.1.type_ = some .qemu then
    stopQemu c w vm_name uri force timeout r0.2
  else (false, r0.2)

/-! ## Basic equations -/

theorem runCommand_eq (c : QEMUController) (w : World) (a : List String) (s : ExecSt) :
    runCommand c w a s = (w s.t, ⟨s.t + 1, s.trace ++ [Event.run (wrapCmd c a)]⟩) := rfl

theorem gvs_qemu (c : QEMUController) (w : World) (name : String) (s : ExecSt) :
    get_vm_status c w name "qemu" s =
      (⟨pgrepStatus (w s.t), some .qemu, none⟩,
       ⟨s.t + 1, s.trace ++ [Event.run (wrapCmd c ["pgrep", "-f", "qemu.*" ++ name])]⟩) := by
  simp [get_vm_status, runCommand]

theorem gvs_libvirt (c : QEMUController) (w : World) (name uri : String) (s : ExecSt)
    (hu : uri ≠ "qemu") (hl : c.libvirt_available = true) :
    get_vm_status c w name uri s =
      (⟨domstateStatus (w s.t), some .libvirt, some uri⟩,
       ⟨s.t + 1, s.trace ++ [Event.run (wrapCmd c ["virsh", "-c", uri, "domstate", name])]⟩) := by
  simp [get_vm_status, hu, hl, runCommand]

/-! ## Claim theorems -/

/-- C5: if the initial status query reports Running then `start_vm` returns
true with the execution state unchanged beyond that query (so no further
command of any kind, in particular no mutating command, is issued); dually,
if it reports Stopped then `stop_vm` returns true the same way. -/
theorem C5_idempotent_noop :
    (∀ (c : QEMUController) (w : World) (name uri : String)
       (cfg : List (String × ConfVal)) (s : ExecSt),
       (get_vm_status c w name uri s).1.status = .Running →
       start_vm c w name uri cfg s = (true, (get_vm_status c w name uri s).2))
    ∧ (∀ (c : QEMUController) (w : World) (name uri : String)
         (force : Bool) (timeout : Nat) (s : ExecSt),
         (get_vm_status c w name uri s).1.status = .Stopped →
         stop_vm c w name uri force timeout s = (true, (get_vm_status c w name uri s).2)) := by
  constructor
  · intro c w name uri cfg s h
    simp only [start_vm]
    rw [if_pos h]
  · intro c w name uri force timeout s h
    simp only [stop_vm]
    rw [if_pos h]

/-- World for the start half of the C5 witness: the status query's `pgrep`
exits 0, so the VM is Running. -/
def c5WorldRun : World := fun t => if t = 0 then some ⟨"", 0⟩ else none

/-- World for the stop half of the C5 witness: the status query's `pgrep`
exits 1, so the VM is Stopped. -/
def c5WorldStop : World := fun t => if t = 0 then some ⟨"", 1⟩ else none

/-- A concrete controller configuration (not under flatpak, libvirt present). -/
def exCtrl : QEMUController := ⟨false, "qemu-system-x86_64", true, none, none⟩

theorem C5_idempotent_noop_witness :
    start_vm exCtrl c5WorldRun "VM1" "qemu" [] ⟨0, []⟩ =
      (true, ⟨1, [Event.run ["pgrep", "-f", "qemu.*VM1"]]⟩)
    ∧ stop_vm exCtrl c5WorldStop "VM1" "qemu" false 3 ⟨0, []⟩ =
      (true, ⟨1, [Event.run ["pgrep", "-f", "qemu.*VM1"]]⟩) := by
  constructor
  · exact (C5_idempotent_noop.1 exCtrl c5WorldRun "VM1" "qemu" [] ⟨0, []⟩
      (by decide)).trans (by decide)
  · exact (C5_idempotent_noop.2 exCtrl c5WorldStop "VM1" "qemu" false 3 ⟨0, []⟩
      (by decide)).trans (by decide)

/-- C6: on a successful (exit 0) `virsh domstate` query the reported state —
as the source reads it, i.e. the stripped and lowercased stdout — maps
`running` to Running, each of `shut off`, `inactive`, `paused`, `suspended`
to Stopped, and every other state string to Unknown. -/
theorem C6_status_mapping (c : QEMUController) (w : World) (name uri : String)
    (s : ExecSt) (pr : ProcResult)
    (hu : uri ≠ "qemu") (hl : c.libvirt_available = true)
    (hw : w s.t = some pr) (he : pr.exitCode = 0) :
    ((get_vm_status c w name uri s).1.status = .Running ↔
      pyLower (pyStrip pr.stdout) = "running")
    ∧ ((get_vm_status c w name uri s).1.status = .Stopped ↔
        (pyLower (pyStrip pr.stdout) = "shut off" ∨ pyLower (pyStrip pr.stdout) = "inactive"
         ∨ pyLower (pyStrip pr.stdout) = "paused" ∨ pyLower (pyStrip pr.stdout) = "suspended"))
    ∧ ((get_vm_status c w name uri s).1.status = .Unknown ↔
        ¬(pyLower (pyStrip pr.stdout) = "running" ∨ pyLower (pyStrip pr.stdout) = "shut off"
          ∨ pyLower (pyStrip pr.stdout) = "inactive" ∨ pyLower (pyStrip pr.stdout) = "paused"
          ∨ pyLower (pyStrip pr.stdout) = "suspended")) := by
  have h1 : (get_vm_status c w name uri s).1.status = domstateStatus (w s.t) := by
    rw [gvs_libvirt c w name uri s hu hl]
  rw [h1, hw]
  simp only [domstateStatus]
  rw [if_pos he]
  by_cases hr : pyLower (pyStrip pr.stdout) = "running"
  · simp [hr]
  · by_cases hs : pyLower (pyStrip pr.stdout) = "shut off"
        ∨ pyLower (pyStrip pr.stdout) = "inactive"
        ∨ pyLower (pyStrip pr.stdout) = "paused"
        ∨ pyLower (pyStrip pr.stdout) = "suspended"
    · simp [hr, hs]
    · simp [hr, hs]

/-- World for the C6 witness: `virsh domstate` succeeds and prints
`" Shut Off\n"`, which normalizes to `shut off`. -/
def c6World : World := fun t => if t = 0 then some ⟨" Shut Off\n", 0⟩ else none

theorem C6_status_mapping_witness :
    (get_vm_status exCtrl c6World "VM1" "qemu:///system" ⟨0, []⟩).1.status = .Stopped := by
  exact (C6_status_mapping exCtrl c6World "VM1" "qemu:///system" ⟨0, []⟩
    ⟨" Shut Off\n", 0⟩ (by decide) rfl rfl rfl).2.1.mpr (by decide)

/-- C7: in every `StatusResult` produced by `get_vm_status`, the `uri` field
is set exactly when the `type` field is `libvirt` (the management daemon). -/
theorem C7_endpoint_iff_daemon (c : QEMUController) (w : World) (name uri : String)
    (s : ExecSt) :
    ((get_vm_status c w name uri s).1.uri.isSome = true) ↔
      (get_vm_status c w name uri s).1.type_ = some VMType.libvirt := by
  unfold get_vm_status
  by_cases h1 : uri = "qemu"
  · simp [h1]
  · by_cases h2 : c.libvirt_available = true
    · simp [h1, h2]
    · simp [h1, h2]

/-! ## Deduplication of the direct-process scan (C8) -/

theorem scanLines_not_managed {managed lines : List String} {d : VMDesc}
    (h : d ∈ scanLines managed lines) : d.name ∉ managed := by
  induction lines with
  | nil => simp [scanLines] at h
  | cons line rest ih =>
    simp only [scanLines] at h
    cases hfg : findGuestName line.toList with
    | none => simp only [hfg] at h; exact ih h
    | some nm =>
      simp only [hfg] at h
      by_cases hm : nm ∉ managed
      · rw [if_pos hm] at h
        rcases List.mem_cons.mp h with h1 | h2
        · rw [h1]; exact hm
        · exact ih h2
      · rw [if_neg hm] at h; exact ih h

theorem managedNames_mem {lv : List (String × List VMDesc)} {u : String}
    {l : List VMDesc} {m : VMDesc} (hu : (u, l) ∈ lv) (hm : m ∈ l) :
    m.name ∈ managedNames lv := by
  induction lv with
  | nil => simp at hu
  | cons p rest ih =>
    rcases List.mem_cons.mp hu with h1 | h2
    · cases p with
      | mk a b =>
        cases h1
        simp only [managedNames]
        exact List.mem_append.mpr (Or.inl (List.mem_map_of_mem _ hm))
    · cases p with
      | mk a b =>
        simp only [managedNames]
        exact List.mem_append.mpr (Or.inr (ih h2))

theorem directOf_not_managed {lv : List (String × List VMDesc)}
    {p : Option ProcResult} {d : VMDesc} (h : d ∈ directOf lv p) :
    d.name ∉ managedNames lv := by
  cases p with
  | none => simp [directOf] at h
  | some r =>
    simp only [directOf] at h
    exact scanLines_not_managed h

/-- C8: no name in the direct list of an inventory returned by `get_vms` also
appears in any endpoint's managed list — the process scan is filtered against
the union of all managed names before a name is accepted. -/
theorem C8_dedup (c : QEMUController) (w : World) (show_all : Bool) (s : ExecSt)
    (d : VMDesc) (hd : d ∈ (get_vms c w show_all s).1.qemu)
    (u : String) (l : List VMDesc) (hu : (u, l) ∈ (get_vms c w show_all s).1.libvirt)
    (m : VMDesc) (hm : m ∈ l) : d.name ≠ m.name := by
  simp only [get_vms] at hd hu
  intro hEq
  exact directOf_not_managed hd (hEq ▸ managedNames_mem hu hm)

/-- World for the C8 witness: libvirt owns `Beta` on the system endpoint; the
process scan shows a line that (only because it contains the literal
backslash-`s` sequence the compiled pattern demands) yields guest `Alpha`. -/
def c8World : World := fun t =>
  if t = 0 then some ⟨"Beta\n", 0⟩
  else if t = 1 then some ⟨"", 0⟩
  else if t = 2 then some ⟨"", 0⟩
  else if t = 3 then some ⟨"", 0⟩
  else if t = 4 then some ⟨"55 qemu-system-x86_64 -name\\ssguest=Alpha,cfg\n", 0⟩
  else none

theorem C8_dedup_witness :
    (⟨"Alpha", Status.Running⟩ : VMDesc).name ≠ (⟨"Beta", Status.Running⟩ : VMDesc).name := by
  exact C8_dedup exCtrl c8World true ⟨0, []⟩ ⟨"Alpha", .Running⟩ (by decide)
    "qemu:///system" [⟨"Beta", .Running⟩] (by decide) ⟨"Beta", .Running⟩ (by decide)

/-! ## The direct-process scan never matches the documented pattern (C1) -/

/-- Controller for the C1 evaluation: libvirt absent, so the inventory is the
process scan alone. -/
def c1Ctrl : QEMUController := ⟨false, "qemu-system-x86_64", false, none, none⟩

/-- World for the C1 evaluation: `pgrep -fa qemu` reports exactly the
process line of Scenario A. -/
def c1World : World := fun t =>
  if t = 0 then some ⟨"12345 qemu-system-x86_64 -name guest=Fedora39,foo\n", 0⟩ else none

/-- C1 (evaluation at the failing input): the compiled pattern
`-name\\s+guest=([^,]+)` — whose doubled backslash makes it demand a literal
backslash followed by letters `s` — does not match the process line
`... -name guest=Fedora39,foo`, so `get_vms` returns an empty direct list
instead of `[{name: Fedora39, status: Running}]`. -/
theorem C1_scan_misses_guest_token :
    findGuestName "12345 qemu-system-x86_64 -name guest=Fedora39,foo".toList = none
    ∧ (get_vms c1Ctrl c1World true ⟨0, []⟩).1 = ⟨[], []⟩ := by
  exact ⟨by decide, by decide⟩

/-! ## Per-endpoint enumeration, failure isolation (C3) -/

/-- World for the C3 counterexample and witness: the system endpoint's
running-list sub-command fails (exit 1) while its inactive-list sub-command
succeeds with `vmA`; the session endpoint succeeds with running `vmB`;
the final process scan matches nothing. -/
def c3World : World := fun t =>
  if t = 0 then some ⟨"", 1⟩
  else if t = 1 then some ⟨"vmA\n", 0⟩
  else if t = 2 then some ⟨"vmB\n", 0⟩
  else if t = 3 then some ⟨"", 0⟩
  else if t = 4 then some ⟨"", 1⟩
  else none

/-- C3 counterexample: the running-list sub-command for `qemu:///system`
fails, yet that endpoint's list in the returned inventory is *not* empty — it
still carries the inactive-list results (`vmA`), contradicting the claim that
a failure of either sub-command leaves the endpoint's list empty. -/
theorem C3_endpoint_failure_counterexample :
    (c3World 0 = some ⟨"", 1⟩)
    ∧ (get_vms exCtrl c3World true ⟨0, []⟩).1.libvirt =
        [("qemu:///system", [⟨"vmA", Status.Stopped⟩]),
         ("qemu:///session", [⟨"vmB", Status.Running⟩])]
    ∧ ¬((get_vms exCtrl c3World true ⟨0, []⟩).1.libvirt.lookup "qemu:///system"
        = some []) := by
  exact ⟨rfl, by decide, by decide⟩

/-- Restatement of the enumeration contract in the spec's terms: each
endpoint contributes, independently of every other endpoint, the results of
its own two list sub-commands — an empty batch for each failed sub-command. -/
def endpointsSpec (w : World) : Nat → List String → List (String × List VMDesc)
  | _, [] => []
  | t, uri :: rest =>
    (uri, runningOf (w t) ++ stoppedOf (w (t + 1))) :: endpointsSpec w (t + 2) rest

theorem uriFold_mem :
    ∀ (l : List (Option String)) (acc : List String) (u : String),
      u ∈ uriFold l acc → u ∈ acc ∨ u ≠ "" := by
  intro l
  induction l with
  | nil =>
    intro acc u h
    exact Or.inl h
  | cons o rest ih =>
    intro acc u h
    cases o with
    | none => exact ih acc u h
    | some uri =>
      simp only [uriFold] at h
      by_cases hc : uri ≠ "" ∧ uri ∉ acc
      · rw [if_pos hc] at h
        rcases ih _ u h with hacc | hne
        · rcases List.mem_append.mp hacc with h1 | h2
          · exact Or.inl h1
          · have : u = uri := by simpa using h2
            exact Or.inr (this ▸ hc.1)
        · exact Or.inr hne
      · rw [if_neg hc] at h
        exact ih acc u h

theorem get_all_connections_ne_empty (c : QEMUController) :
    ∀ u ∈ get_all_connections c, u ≠ "" := by
  intro u h
  rcases uriFold_mem _ [] u h with h1 | h2
  · simp at h1
  · exact h2

theorem listEndpoint_eq (c : QEMUController) (w : World) (uri : String) (s : ExecSt) :
    listEndpoint c w uri s =
      (runningOf (w s.t) ++ stoppedOf (w (s.t + 1)),
       ⟨s.t + 1 + 1,
        (s.trace ++ [Event.run (wrapCmd c ["virsh", "-c", uri, "list", "--name"])])
          ++ [Event.run (wrapCmd c ["virsh", "-c", uri, "list", "--inactive", "--name"])]⟩) := rfl

theorem listEndpoints_spec (c : QEMUController) (w : World) :
    ∀ (conns : List String) (s : ExecSt), (∀ u ∈ conns, u ≠ "") →
      (listEndpoints c w (conns.map some) s).1 = endpointsSpec w s.t conns
      ∧ ((listEndpoints c w (conns.map some) s).2).t = s.t + 2 * conns.length := by
  intro conns
  induction conns with
  | nil =>
    intro s _
    simp [listEndpoints, endpointsSpec]
  | cons uri rest ih =>
    intro s h
    have hne : uri ≠ "" := h uri (List.mem_cons_self _ _)
    have hrest : ∀ u ∈ rest, u ≠ "" := fun u hu => h u (List.mem_cons_of_mem _ hu)
    have ih2 := ih (listEndpoint c w uri s).2 hrest
    have ht : (listEndpoint c w uri s).2.t = s.t + 2 := rfl
    rw [ht] at ih2
    simp only [List.map_cons, listEndpoints, if_neg hne]
    refine ⟨?_, ?_⟩
    · simp only [endpointsSpec]
      rw [← ih2.1]
      rfl
    · rw [ih2.2]
      simp only [List.length_cons]
      omega

/-- C3 amended: each endpoint in the fixed connection list appears in the
returned inventory with exactly the results of its own two list sub-commands
(a failed sub-command contributes an empty batch, and only that batch), so a
failure for one endpoint never affects the other endpoints. -/
theorem C3_amended_per_subcommand (c : QEMUController) (w : World) (s : ExecSt)
    (hl : c.libvirt_available = true) :
    (get_vms c w true s).1.libvirt = endpointsSpec w s.t (get_all_connections c) := by
  have h1 : (get_vms c w true s).1.libvirt
      = (listEndpoints c w ((get_all_connections c).map some) s).1 := by
    simp [get_vms, connectionList, hl]
  rw [h1]
  exact (listEndpoints_spec c w (get_all_connections c) s
    (get_all_connections_ne_empty c)).1

theorem C3_amended_witness :
    (get_vms exCtrl c3World true ⟨0, []⟩).1.libvirt =
      [("qemu:///system", [⟨"vmA", Status.Stopped⟩]),
       ("qemu:///session", [⟨"vmB", Status.Running⟩])] := by
  rw [C3_amended_per_subcommand exCtrl c3World ⟨0, []⟩ rfl]
  decide

theorem wrapCmd_noflat {c : QEMUController} (hflat : c.flatpak = false)
    (a : List String) : wrapCmd c a = a := by
  simp [wrapCmd, hflat]

/-- C4: a forced stop on a management-daemon endpoint whose status query
reports Running runs exactly three commands — the status query, one `virsh
destroy`, and the post-settle status re-query (so `destroy` is issued exactly
once and the polling loop is never entered) — and returns true iff the
re-queried status is Stopped. -/
theorem C4_forced_stop (c : QEMUController) (w : World) (name uri : String)
    (timeout : Nat) (s : ExecSt) (pr1 : ProcResult)
    (hu : uri ≠ "qemu") (hl : c.libvirt_available = true)
    (h0 : domstateStatus (w s.t) = .Running)
    (h1 : w (s.t + 1) = some pr1) (h1e : pr1.exitCode = 0) :
    stop_vm c w name uri true timeout s =
      (decide (domstateStatus (w (s.t + 2)) = .Stopped),
       ⟨s.t + 3,
        s.trace ++ [Event.run (wrapCmd c ["virsh", "-c", uri, "domstate", name]),
                    Event.run (wrapCmd c ["virsh", "-c", uri, "destroy", name]),
                    Event.run (wrapCmd c ["virsh", "-c", uri, "domstate", name])]⟩) := by
  have e0 := gvs_libvirt c w name uri s hu hl
  simp only [stop_vm, e0]
  rw [h0]
  rw [if_neg (by decide : ¬(Status.Running = Status.Stopped))]
  rw [if_pos (show uri ≠ "qemu" ∧ True from ⟨hu, trivial⟩)]
  simp only [stopLibvirt, if_true, runCommand_eq]
  rw [h1]
  simp only [h1e]
  rw [gvs_libvirt c w name uri _ hu hl]
  dsimp only
  simp [List.append_assoc]

/-- World for the C4 witness: domstate reports running, `destroy` exits 0,
the post-settle domstate reports shut off. -/
def c4World : World := fun t =>
  if t = 0 then some ⟨"running\n", 0⟩
  else if t = 1 then some ⟨"", 0⟩
  else if t = 2 then some ⟨"shut off\n", 0⟩
  else none

theorem C4_forced_stop_witness :
    stop_vm exCtrl c4World "Fedora39" "qemu:///system" true 3 ⟨0, []⟩ =
      (true, ⟨3, [Event.run ["virsh", "-c", "qemu:///system", "domstate", "Fedora39"],
                  Event.run ["virsh", "-c", "qemu:///system", "destroy", "Fedora39"],
                  Event.run ["virsh", "-c", "qemu:///system", "domstate", "Fedora39"]]⟩) := by
  exact (C4_forced_stop exCtrl c4World "Fedora39" "qemu:///system" 3 ⟨0, []⟩ ⟨"", 0⟩
    (by decide) rfl (by decide) rfl rfl).trans (by decide)

/-- C9: `start_vm` on the direct-process path (endpoint `"qemu"`, initial
status not Running, not under flatpak) spawns exactly the argv
`<binary> -name guest=<name>` followed by the rendering of the config —
a bare `-key` token for boolean-true entries, the pair `-key`, `str(value)`
for every other entry, in config order — between the status query and the
post-settle re-query. -/
theorem C9_direct_spawn_argv (c : QEMUController) (w : World) (name : String)
    (cfg : List (String × ConfVal)) (s : ExecSt) (pr1 : ProcResult)
    (hflat : c.flatpak = false)
    (h0 : pgrepStatus (w s.t) ≠ .Running)
    (h1 : w (s.t + 1) = some pr1) :
    start_vm c w name "qemu" cfg s =
      (decide (pgrepStatus (w (s.t + 2)) = .Running),
       ⟨s.t + 3,
        s.trace ++ [Event.run ["pgrep", "-f", "qemu.*" ++ name],
                    Event.run (c.qemu_bin_path :: "-name" :: ("guest=" ++ name) :: configArgs cfg),
                    Event.run ["pgrep", "-f", "qemu.*" ++ name]]⟩) := by
  have e0 := gvs_qemu c w name s
  simp only [start_vm, e0, wrapCmd_noflat hflat]
  rw [if_neg h0]
  rw [if_neg (show ¬(("qemu" : String) ≠ "qemu" ∧ c.libvirt_available = true) from
    fun h => h.1 rfl)]
  rw [if_pos trivial]
  simp only [runCommand_eq, wrapCmd_noflat hflat]
  rw [h1]
  simp only [gvs_qemu, wrapCmd_noflat hflat]
  simp [List.append_assoc]

/-- World for the C9 witness (Scenario D): the VM is not yet running, the
spawn succeeds, the re-query reports Running. -/
def c9World : World := fun t =>
  if t = 0 then some ⟨"", 1⟩
  else if t = 1 then some ⟨"", 0⟩
  else if t = 2 then some ⟨"", 0⟩
  else none

theorem C9_direct_spawn_argv_witness :
    start_vm exCtrl c9World "Fedora39" "qemu"
        [("m", ConfVal.s "2048"), ("enable-kvm", ConfVal.b true)] ⟨0, []⟩ =
      (true, ⟨3, [Event.run ["pgrep", "-f", "qemu.*Fedora39"],
                  Event.run ["qemu-system-x86_64", "-name", "guest=Fedora39",
                             "-m", "2048", "-enable-kvm"],
                  Event.run ["pgrep", "-f", "qemu.*Fedora39"]]⟩) := by
  exact (C9_direct_spawn_argv exCtrl c9World "Fedora39"
    [("m", ConfVal.s "2048"), ("enable-kvm", ConfVal.b true)] ⟨0, []⟩ ⟨"", 0⟩
    rfl (by decide) rfl).trans (by decide)

/-- A character list containing a `'\n'` is never accepted by `int()`. -/
theorem pyIntChars_newline (l1 l2 : List Char) :
    pyIntChars (l1 ++ '\n' :: l2) = none := by
  have hnl : Char.isDigit '\n' = false := by decide
  cases l1 with
  | nil =>
    simp [pyIntChars, hnl]
  | cons c cs =>
    simp only [List.cons_append, pyIntChars]
    have hd : ((cs ++ '\n' :: l2).all Char.isDigit) = false := by
      simp [List.all_append, hnl]
    by_cases hc1 : c = '-'
    · simp [hc1, hd]
    · by_cases hc2 : c = '+'
      · simp [hc1, hc2, hd]
      · have hd2 : ((c :: (cs ++ '\n' :: l2)).all Char.isDigit) = false := by
          simp [List.all_cons, hd]
        simp [hc1, hc2, hd2]

/-- C10: on the direct-process path with the VM Running, when the pid search
returns multi-line output (more than one matching process) the `int()` parse
raises, so `stop_vm` sends no signal — the trace holds only the two `pgrep`
queries — and returns false. -/
theorem C10_multiline_pid (c : QEMUController) (w : World) (name : String)
    (timeout : Nat) (s : ExecSt) (pr0 pr1 : ProcResult) (l1 l2 : List Char)
    (h0 : w s.t = some pr0) (h0e : pr0.exitCode = 0)
    (h1 : w (s.t + 1) = some pr1) (h1e : pr1.exitCode = 0)
    (hml : (pyStrip pr1.stdout).toList = l1 ++ '\n' :: l2) :
    stop_vm c w name "qemu" false timeout s =
      (false,
       ⟨s.t + 2,
        s.trace ++ [Event.run (wrapCmd c ["pgrep", "-f", "qemu.*" ++ name]),
                    Event.run (wrapCmd c ["pgrep", "-f", "qemu.*" ++ name])]⟩) := by
  have hpi : pyInt (pyStrip pr1.stdout) = none := by
    simp only [pyInt]
    rw [hml, pyIntChars_newline]
  have hst : pgrepStatus (w s.t) = Status.Running := by
    rw [h0]; simp [pgrepStatus, h0e]
  have e0 := gvs_qemu c w name s
  simp only [stop_vm, e0, hst]
  rw [if_neg (by decide : ¬(Status.Running = Status.Stopped))]
  rw [if_neg (by decide :
    ¬(("qemu" : String) ≠ "qemu" ∧ some VMType.qemu = some VMType.libvirt))]
  rw [if_pos (⟨trivial, trivial⟩ : True ∧ True)]
  simp only [stopQemu, runCommand_eq]
  rw [h1]
  simp only [h1e, hpi]
  simp [List.append_assoc]

/-- World for the C10 witness: the VM is Running and the pid search prints
two pids, `123` and `456`. -/
def c10World : World := fun t =>
  if t = 0 then some ⟨"", 0⟩
  else if t = 1 then some ⟨"123\n456\n", 0⟩
  else none

theorem C10_multiline_pid_witness :
    stop_vm exCtrl c10World "Fedora39" "qemu" false 3 ⟨0, []⟩ =
      (false, ⟨2, [Event.run ["pgrep", "-f", "qemu.*Fedora39"],
                   Event.run ["pgrep", "-f", "qemu.*Fedora39"]]⟩) := by
  exact (C10_multiline_pid exCtrl c10World "Fedora39" 3 ⟨0, []⟩ ⟨"", 0⟩ ⟨"123\n456\n", 0⟩
    ['1', '2', '3'] ['4', '5', '6'] rfl rfl rfl rfl (by decide)).trans (by decide)

/-! ## The graceful poll loop (for C2) -/

theorem pollLoop_libvirt_running (c : QEMUController) (w : World) (name uri : String)
    (hu : uri ≠ "qemu") (hl : c.libvirt_available = true) :
    ∀ (n : Nat) (s : ExecSt),
      (∀ i, i < n → domstateStatus (w (s.t + i)) = .Running) →
      pollLoop c w name uri n s =
        (false, ⟨s.t + n, s.trace ++ List.replicate n
          (Event.run (wrapCmd c ["virsh", "-c", uri, "domstate", name]))⟩) := by
  intro n
  induction n with
  | zero =>
    intro s _
    simp [pollLoop]
  | succ n ih =>
    intro s h
    have h0 := h 0 (Nat.succ_pos n)
    rw [Nat.add_zero] at h0
    simp only [pollLoop, gvs_libvirt c w name uri s hu hl]
    rw [h0]
    rw [if_neg (by decide : ¬(Status.Running = Status.Stopped))]
    have ih2 := ih ⟨s.t + 1,
        s.trace ++ [Event.run (wrapCmd c ["virsh", "-c", uri, "domstate", name])]⟩
      (fun i hi => by
        have hh := h (i + 1) (Nat.succ_lt_succ hi)
        rw [show s.t + (i + 1) = s.t + 1 + i by omega] at hh
        exact hh)
    rw [ih2]
    dsimp only
    refine congrArg _ ?_
    refine congrArg₂ _ (by omega) ?_
    simp [List.replicate_succ]

theorem pollLoop_qemu_running (c : QEMUController) (w : World) (name : String) :
    ∀ (n : Nat) (s : ExecSt),
      (∀ i, i < n → pgrepStatus (w (s.t + i)) = .Running) →
      pollLoop c w name "qemu" n s =
        (false, ⟨s.t + n, s.trace ++ List.replicate n
          (Event.run (wrapCmd c ["pgrep", "-f", "qemu.*" ++ name]))⟩) := by
  intro n
  induction n with
  | zero =>
    intro s _
    simp [pollLoop]
  | succ n ih =>
    intro s h
    have h0 := h 0 (Nat.succ_pos n)
    rw [Nat.add_zero] at h0
    simp only [pollLoop, gvs_qemu c w name s]
    rw [h0]
    rw [if_neg (by decide : ¬(Status.Running = Status.Stopped))]
    have ih2 := ih ⟨s.t + 1,
        s.trace ++ [Event.run (wrapCmd c ["pgrep", "-f", "qemu.*" ++ name])]⟩
      (fun i hi => by
        have hh := h (i + 1) (Nat.succ_lt_succ hi)
        rw [show s.t + (i + 1) = s.t + 1 + i by omega] at hh
        exact hh)
    rw [ih2]
    dsimp only
    refine congrArg _ ?_
    refine congrArg₂ _ (by omega) ?_
    simp [List.replicate_succ]

/-- Characterization of the libvirt stop branch under a graceful stop that
never observes Stopped: shutdown succeeds, every poll and the post-timeout
check report Running, so a best-effort `destroy` is issued and the returned
boolean reflects the final re-query. -/
theorem stopLibvirt_graceful_escalates (c : QEMUController) (w : World)
    (name uri : String) (timeout : Nat) (s : ExecSt) (pr1 : ProcResult)
    (hu : uri ≠ "qemu") (hl : c.libvirt_available = true)
    (h1 : w s.t = some pr1) (h1e : pr1.exitCode = 0)
    (hpoll : ∀ i, i ≤ timeout → domstateStatus (w (s.t + 1 + i)) = .Running) :
    stopLibvirt c w name uri false timeout s =
      (decide (domstateStatus (w (s.t + timeout + 3)) = .Stopped),
       ⟨s.t + timeout + 4,
        s.trace ++ [Event.run (wrapCmd c ["virsh", "-c", uri, "shutdown", name])]
          ++ List.replicate (timeout + 1)
              (Event.run (wrapCmd c ["virsh", "-c", uri, "domstate", name]))
          ++ [Event.run (wrapCmd c ["virsh", "-c", uri, "destroy", name]),
              Event.run (wrapCmd c ["virsh", "-c", uri, "domstate", name])]⟩) := by
  simp only [stopLibvirt, Bool.false_eq_true, if_false, runCommand_eq]
  rw [h1]
  simp only [h1e]
  rw [if_neg (by decide : ¬((0 : Nat) ≠ 0))]
  have hp := pollLoop_libvirt_running c w name uri hu hl timeout
    ⟨s.t + 1, s.trace ++ [Event.run (wrapCmd c ["virsh", "-c", uri, "shutdown", name])]⟩
    (fun i hi => hpoll i (Nat.le_of_lt hi))
  rw [hp]
  dsimp only
  rw [if_neg (by decide : ¬(false = true))]
  rw [gvs_libvirt c w name uri
    ⟨s.t + 1 + timeout,
     s.trace ++ [Event.run (wrapCmd c ["virsh", "-c", uri, "shutdown", name])] ++
       List.replicate timeout (Event.run (wrapCmd c ["virsh", "-c", uri, "domstate", name]))⟩
    hu hl]
  dsimp only
  rw [hpoll timeout (Nat.le_refl timeout)]
  rw [if_pos rfl]
  rw [gvs_libvirt c w name uri
    ⟨s.t + 1 + timeout + 1 + 1,
     s.trace ++ [Event.run (wrapCmd c ["virsh", "-c", uri, "shutdown", name])] ++
       List.replicate timeout (Event.run (wrapCmd c ["virsh", "-c", uri, "domstate", name])) ++
       [Event.run (wrapCmd c ["virsh", "-c", uri, "domstate", name])] ++
       [Event.run (wrapCmd c ["virsh", "-c", uri, "destroy", name])]⟩
    hu hl]
  dsimp only
  rw [show s.t + 1 + timeout + 1 + 1 + 1 = s.t + timeout + 4 from by omega]
  rw [show s.t + 1 + timeout + 1 + 1 = s.t + timeout + 3 from by omega]
  simp [List.append_assoc, List.replicate_succ']

/-- Characterization of the direct-process stop branch under a graceful stop
that never observes Stopped: the pid resolves, SIGTERM is sent, every poll and
the post-timeout check report Running, so SIGKILL is sent and the returned
boolean reflects the final re-query. -/
theorem stopQemu_graceful_escalates (c : QEMUController) (w : World)
    (name : String) (timeout : Nat) (s : ExecSt) (pr1 : ProcResult) (pid : Int)
    (h1 : w s.t = some pr1) (h1e : pr1.exitCode = 0)
    (hpid : pyInt (pyStrip pr1.stdout) = some pid)
    (hpoll : ∀ i, i ≤ timeout → pgrepStatus (w (s.t + 1 + i)) = .Running) :
    stopQemu c w name "qemu" false timeout s =
      (decide (pgrepStatus (w (s.t + timeout + 2)) = .Stopped),
       ⟨s.t + timeout + 3,
        s.trace ++ [Event.run (wrapCmd c ["pgrep", "-f", "qemu.*" ++ name]),
                    Event.kill pid Sig.sigterm]
          ++ List.replicate timeout (Event.run (wrapCmd c ["pgrep", "-f", "qemu.*" ++ name]))
          ++ [Event.run (wrapCmd c ["pgrep", "-f", "qemu.*" ++ name]),
              Event.kill pid Sig.sigkill,
              Event.run (wrapCmd c ["pgrep", "-f", "qemu.*" ++ name])]⟩) := by
  simp only [stopQemu, Bool.false_eq_true, if_false, runCommand_eq, killEv]
  rw [h1]
  simp only [h1e, hpid]
  rw [if_neg (by decide : ¬((0 : Nat) ≠ 0))]
  have hp := pollLoop_qemu_running c w name timeout
    ⟨s.t + 1, s.trace ++ [Event.run (wrapCmd c ["pgrep", "-f", "qemu.*" ++ name])]
      ++ [Event.kill pid Sig.sigterm]⟩
    (fun i hi => hpoll i (Nat.le_of_lt hi))
  rw [hp]
  dsimp only
  rw [if_neg (by decide : ¬(false = true))]
  rw [gvs_qemu c w name
    ⟨s.t + 1 + timeout,
     s.trace ++ [Event.run (wrapCmd c ["pgrep", "-f", "qemu.*" ++ name])]
       ++ [Event.kill pid Sig.sigterm]
       ++ List.replicate timeout (Event.run (wrapCmd c ["pgrep", "-f", "qemu.*" ++ name]))⟩]
  dsimp only
  rw [hpoll timeout (Nat.le_refl timeout)]
  rw [if_pos rfl]
  rw [gvs_qemu c w name
    ⟨s.t + 1 + timeout + 1,
     s.trace ++ [Event.run (wrapCmd c ["pgrep", "-f", "qemu.*" ++ name])]
       ++ [Event.kill pid Sig.sigterm]
       ++ List.replicate timeout (Event.run (wrapCmd c ["pgrep", "-f", "qemu.*" ++ name]))
       ++ [Event.run (wrapCmd c ["pgrep", "-f", "qemu.*" ++ name])]
       ++ [Event.kill pid Sig.sigkill]⟩]
  dsimp only
  rw [show s.t + 1 + timeout + 1 + 1 = s.t + timeout + 3 from by omega]
  rw [show s.t + 1 + timeout + 1 = s.t + timeout + 2 from by omega]
  simp [List.append_assoc]

/-- C2: a graceful `stop_vm` on a VM that never reports Stopped — every poll
during the timeout window and the post-timeout check report Running — issues a
forced-termination action before returning (`virsh destroy` on the
management-daemon path, SIGKILL on the direct-process path, both visible in
the exact trace), and the returned boolean reflects the status re-queried
after the escalation. -/
theorem C2_graceful_then_forced :
    (∀ (c : QEMUController) (w : World) (name uri : String) (timeout : Nat)
       (s : ExecSt) (pr1 : ProcResult),
       uri ≠ "qemu" → c.libvirt_available = true →
       domstateStatus (w s.t) = .Running →
       w (s.t + 1) = some pr1 → pr1.exitCode = 0 →
       (∀ i, i ≤ timeout → domstateStatus (w (s.t + 2 + i)) = .Running) →
       stop_vm c w name uri false timeout s =
         (decide (domstateStatus (w (s.t + timeout + 4)) = .Stopped),
          ⟨s.t + timeout + 5,
           s.trace ++ [Event.run (wrapCmd c ["virsh", "-c", uri, "domstate", name]),
                       Event.run (wrapCmd c ["virsh", "-c", uri, "shutdown", name])]
             ++ List.replicate (timeout + 1)
                 (Event.run (wrapCmd c ["virsh", "-c", uri, "domstate", name]))
             ++ [Event.run (wrapCmd c ["virsh", "-c", uri, "destroy", name]),
                 Event.run (wrapCmd c ["virsh", "-c", uri, "domstate", name])]⟩))
    ∧ (∀ (c : QEMUController) (w : World) (name : String) (timeout : Nat)
         (s : ExecSt) (pr1 : ProcResult) (pid : Int),
         pgrepStatus (w s.t) = .Running →
         w (s.t + 1) = some pr1 → pr1.exitCode = 0 →
         pyInt (pyStrip pr1.stdout) = some pid →
         (∀ i, i ≤ timeout → pgrepStatus (w (s.t + 2 + i)) = .Running) →
         stop_vm c w name "qemu" false timeout s =
           (decide (pgrepStatus (w (s.t + timeout + 3)) = .Stopped),
            ⟨s.t + timeout + 4,
             s.trace ++ [Event.run (wrapCmd c ["pgrep", "-f", "qemu.*" ++ name]),
                         Event.run (wrapCmd c ["pgrep", "-f", "qemu.*" ++ name]),
                         Event.kill pid Sig.sigterm]
               ++ List.replicate timeout (Event.run (wrapCmd c ["pgrep", "-f", "qemu.*" ++ name]))
               ++ [Event.run (wrapCmd c ["pgrep", "-f", "qemu.*" ++ name]),
                   Event.kill pid Sig.sigkill,
                   Event.run (wrapCmd c ["pgrep", "-f", "qemu.*" ++ name])]⟩)) := by
  constructor
  · intro c w name uri timeout s pr1 hu hl h0 h1 h1e hC
    have e0 := gvs_libvirt c w name uri s hu hl
    simp only [stop_vm, e0]
    rw [h0]
    rw [if_neg (by decide : ¬(Status.Running = Status.Stopped))]
    rw [if_pos (show uri ≠ "qemu" ∧ True from ⟨hu, trivial⟩)]
    rw [stopLibvirt_graceful_escalates c w name uri timeout
      ⟨s.t + 1, s.trace ++ [Event.run (wrapCmd c ["virsh", "-c", uri, "domstate", name])]⟩
      pr1 hu hl h1 h1e (fun i hi => hC i hi)]
    dsimp only
    rw [show s.t + 1 + timeout + 4 = s.t + timeout + 5 from by omega]
    rw [show s.t + 1 + timeout + 3 = s.t + timeout + 4 from by omega]
    simp [List.append_assoc]
  · intro c w name timeout s pr1 pid h0 h1 h1e hpid hC
    have e0 := gvs_qemu c w name s
    simp only [stop_vm, e0, h0]
    rw [if_neg (by decide : ¬(Status.Running = Status.Stopped))]
    rw [if_neg (by decide :
      ¬(("qemu" : String) ≠ "qemu" ∧ some VMType.qemu = some VMType.libvirt))]
    rw [if_pos (⟨trivial, trivial⟩ : True ∧ True)]
    rw [stopQemu_graceful_escalates c w name timeout
      ⟨s.t + 1, s.trace ++ [Event.run (wrapCmd c ["pgrep", "-f", "qemu.*" ++ name])]⟩
      pr1 pid h1 h1e hpid (fun i hi => hC i hi)]
    dsimp only
    rw [show s.t + 1 + timeout + 3 = s.t + timeout + 4 from by omega]
    rw [show s.t + 1 + timeout + 2 = s.t + timeout + 3 from by omega]
    simp [List.append_assoc]

/-- World for the libvirt half of the C2 witness (timeout 2): shutdown exits
0, every poll and the post-timeout check report running, the destroy is
acknowledged and the final re-query reports shut off. -/
def c2WorldL : World := fun t =>
  if t ≤ 4 then some ⟨"running\n", 0⟩
  else if t = 5 then some ⟨"", 0⟩
  else if t = 6 then some ⟨"shut off\n", 0⟩
  else none

/-- World for the direct-process half of the C2 witness (timeout 1): the pid
search prints `77`, every poll and the post-timeout check report Running
(pgrep exit 0), the final re-query exits 1 (process gone). -/
def c2WorldQ : World := fun t =>
  if t = 0 then some ⟨"", 0⟩
  else if t = 1 then some ⟨"77\n", 0⟩
  else if t ≤ 3 then some ⟨"", 0⟩
  else if t = 4 then some ⟨"", 1⟩
  else none

theorem C2_graceful_then_forced_witness :
    stop_vm exCtrl c2WorldL "Fedora39" "qemu:///system" false 2 ⟨0, []⟩ =
      (true, ⟨7, [Event.run ["virsh", "-c", "qemu:///system", "domstate", "Fedora39"],
                  Event.run ["virsh", "-c", "qemu:///system", "shutdown", "Fedora39"],
                  Event.run ["virsh", "-c", "qemu:///system", "domstate", "Fedora39"],
                  Event.run ["virsh", "-c", "qemu:///system", "domstate", "Fedora39"],
                  Event.run ["virsh", "-c", "qemu:///system", "domstate", "Fedora39"],
                  Event.run ["virsh", "-c", "qemu:///system", "destroy", "Fedora39"],
                  Event.run ["virsh", "-c", "qemu:///system", "domstate", "Fedora39"]]⟩)
    ∧ stop_vm exCtrl c2WorldQ "X" "qemu" false 1 ⟨0, []⟩ =
      (true, ⟨5, [Event.run ["pgrep", "-f", "qemu.*X"],
                  Event.run ["pgrep", "-f", "qemu.*X"],
                  Event.kill 77 Sig.sigterm,
                  Event.run ["pgrep", "-f", "qemu.*X"],
                  Event.run ["pgrep", "-f", "qemu.*X"],
                  Event.kill 77 Sig.sigkill,
                  Event.run ["pgrep", "-f", "qemu.*X"]]⟩) := by
  constructor
  · exact (C2_graceful_then_forced.1 exCtrl c2WorldL "Fedora39" "qemu:///system" 2
      ⟨0, []⟩ ⟨"running\n", 0⟩ (by decide) rfl (by decide) rfl rfl (by decide)).trans
      (by decide)
  · exact (C2_graceful_then_forced.2 exCtrl c2WorldQ "X" 1
      ⟨0, []⟩ ⟨"77\n", 0⟩ 77 (by decide) rfl rfl (by decide) (by decide)).trans
      (by decide)

end QEMUPlugin
